import Mathlib

/-!
Verification of the action-classification core and link utilities of the
zulip-mobile client, as a shallow embedding of the JavaScript source.

Main sources embedded here:
* `src/actionTypes.js` — the `Action` catalog, the three partition unions
  (`PerAccountAction`, `AllAccountsAction`, `AccountIndependentAction`)
  and the runtime classifier `isPerAccountApplicableAction`;
* `src/utils/internalLinks.js` — narrow-link parsing helpers, in
  particular the dot-encoding pair `encodeHashComponent` /
  `decodeHashComponent`;
* `src/webview/html/messageListElementHtml.js` — rendering a list of
  message-list elements to one HTML string.

Machine integers do not occur in these sources; JS strings are modelled
as Lean `String` (lists of Unicode scalar values), and the JS builtins
`encodeURIComponent` / `decodeURIComponent` are modelled after their
ECMA-262 definitions (strict UTF-8 percent-encoding).
-/

namespace ZulipMobile

/--
Discriminants of the `Action` union of `src/actionTypes.js`.  Each
constructor stands for one of the distinct string constants imported
from `actionConstants.js`; the constants are pairwise distinct strings,
which the inductive presentation captures.
-/
inductive ActionType
  | EVENT
  | EVENT_ALERT_WORDS
  | EVENT_MESSAGE_DELETE
  | EVENT_MUTED_TOPICS
  | EVENT_MUTED_USERS
  | EVENT_NEW_MESSAGE
  | EVENT_SUBMESSAGE
  | EVENT_PRESENCE
  | EVENT_REALM_EMOJI_UPDATE
  | EVENT_REALM_FILTERS
  | EVENT_UPDATE_GLOBAL_NOTIFICATIONS_SETTINGS
  | EVENT_UPDATE_DISPLAY_SETTINGS
  | EVENT_UPDATE_MESSAGE
  | EVENT_UPDATE_MESSAGE_FLAGS
  | EVENT_REACTION_ADD
  | EVENT_REACTION_REMOVE
  | EVENT_SUBSCRIPTION
  | EVENT_TYPING_START
  | EVENT_TYPING_STOP
  | EVENT_USER_ADD
  | EVENT_USER_REMOVE
  | EVENT_USER_UPDATE
  | EVENT_USER_GROUP_ADD
  | EVENT_USER_GROUP_REMOVE
  | EVENT_USER_GROUP_UPDATE
  | EVENT_USER_GROUP_ADD_MEMBERS
  | EVENT_USER_GROUP_REMOVE_MEMBERS
  | EVENT_USER_STATUS_UPDATE
  | DEAD_QUEUE
  | REGISTER_START
  | REGISTER_ABORT
  | REGISTER_COMPLETE
  | MESSAGE_FETCH_START
  | MESSAGE_FETCH_ERROR
  | MESSAGE_FETCH_COMPLETE
  | MESSAGE_SEND_START
  | MESSAGE_SEND_COMPLETE
  | DELETE_OUTBOX_MESSAGE
  | DRAFT_UPDATE
  | PRESENCE_RESPONSE
  | INIT_TOPICS
  | CLEAR_TYPING
  | DISMISS_SERVER_COMPAT_NOTICE
  | DISMISS_SERVER_PUSH_SETUP_NOTICE
  | TOGGLE_OUTBOX_SENDING
  | REHYDRATE
  | ACCOUNT_SWITCH
  | ACCOUNT_REMOVE
  | LOGIN_SUCCESS
  | LOGOUT
  | ACK_PUSH_TOKEN
  | UNACK_PUSH_TOKEN
  | SET_GLOBAL_SETTINGS
  | APP_ONLINE
  | APP_ORIENTATION
  | GOT_PUSH_TOKEN
  | DEBUG_FLAG_TOGGLE
deriving DecidableEq, Fintype, Repr

namespace ActionType

/--
Discriminants of the `EventAction` union (`actionTypes.js` lines
546-569), in source order.  The sub-unions `EventReactionAction`,
`EventSubscriptionAction` (five `op` variants, one discriminant),
`EventTypingAction`, `EventUserAction` and `EventUserGroupAction` are
expanded in place.
-/
def EventActionTypes : List ActionType :=
  [ EVENT
  , EVENT_ALERT_WORDS
  , EVENT_MESSAGE_DELETE
  , EVENT_MUTED_TOPICS
  , EVENT_MUTED_USERS
  , EVENT_NEW_MESSAGE
  , EVENT_SUBMESSAGE
  , EVENT_PRESENCE
  , EVENT_REALM_EMOJI_UPDATE
  , EVENT_REALM_FILTERS
  , EVENT_UPDATE_GLOBAL_NOTIFICATIONS_SETTINGS
  , EVENT_UPDATE_DISPLAY_SETTINGS
  , EVENT_UPDATE_MESSAGE
  , EVENT_UPDATE_MESSAGE_FLAGS
  , EVENT_REACTION_ADD
  , EVENT_REACTION_REMOVE
  , EVENT_SUBSCRIPTION
  , EVENT_TYPING_START
  , EVENT_TYPING_STOP
  , EVENT_USER_ADD
  , EVENT_USER_REMOVE
  , EVENT_USER_UPDATE
  , EVENT_USER_GROUP_ADD
  , EVENT_USER_GROUP_REMOVE
  , EVENT_USER_GROUP_UPDATE
  , EVENT_USER_GROUP_ADD_MEMBERS
  , EVENT_USER_GROUP_REMOVE_MEMBERS
  , EVENT_USER_STATUS_UPDATE ]

/-- Discriminants of the `AccountAction` union (lines 631-636).  Note
that the source really does list `DismissServerPushSetupNoticeAction`
here as well as directly under `PerAccountAction`. -/
def AccountActionTypes : List ActionType :=
  [ ACCOUNT_SWITCH, ACCOUNT_REMOVE, LOGIN_SUCCESS, LOGOUT
  , DISMISS_SERVER_PUSH_SETUP_NOTICE ]

/-- Discriminants of the `LoadingAction` union (lines 638-642). -/
def LoadingActionTypes : List ActionType :=
  [ DEAD_QUEUE, REGISTER_START, REGISTER_ABORT, REGISTER_COMPLETE ]

/-- Discriminants of the `MessageAction` union (line 644). -/
def MessageActionTypes : List ActionType :=
  [ MESSAGE_FETCH_START, MESSAGE_FETCH_ERROR, MESSAGE_FETCH_COMPLETE ]

/-- Discriminants of the `OutboxAction` union (line 646). -/
def OutboxActionTypes : List ActionType :=
  [ MESSAGE_SEND_START, MESSAGE_SEND_COMPLETE, DELETE_OUTBOX_MESSAGE ]

/-- Discriminants of the `PerAccountAction` union (lines 664-678), in
source order. -/
def PerAccountActionTypes : List ActionType :=
  EventActionTypes
    ++ LoadingActionTypes
    ++ MessageActionTypes
    ++ OutboxActionTypes
    ++ [ DRAFT_UPDATE
       , PRESENCE_RESPONSE
       , INIT_TOPICS
       , CLEAR_TYPING
       , DISMISS_SERVER_COMPAT_NOTICE
       , DISMISS_SERVER_PUSH_SETUP_NOTICE
       , TOGGLE_OUTBOX_SENDING ]

/-- Discriminants of the `AllAccountsAction` union (lines 682-690), in
source order. -/
def AllAccountsActionTypes : List ActionType :=
  [ REHYDRATE ]
    ++ AccountActionTypes
    ++ [ ACK_PUSH_TOKEN, UNACK_PUSH_TOKEN ]

/-- Discriminants of the `AccountIndependentAction` union (lines
694-701), in source order. -/
def AccountIndependentActionTypes : List ActionType :=
  [ SET_GLOBAL_SETTINGS, APP_ONLINE, APP_ORIENTATION, GOT_PUSH_TOKEN
  , DEBUG_FLAG_TOGGLE ]

/-- Discriminants of the `Action` union itself (lines 713-718): the
union of the three partition unions. -/
def ActionCatalogTypes : List ActionType :=
  PerAccountActionTypes ++ AllAccountsActionTypes ++ AccountIndependentActionTypes

/-- Membership of a discriminant in exactly one of the three partition
unions, the invariant the spec states for the partition taxonomy. -/
def inExactlyOnePartition (t : ActionType) : Prop :=
  (t ∈ PerAccountActionTypes ∧ t ∉ AllAccountsActionTypes ∧ t ∉ AccountIndependentActionTypes)
  ∨ (t ∉ PerAccountActionTypes ∧ t ∈ AllAccountsActionTypes ∧ t ∉ AccountIndependentActionTypes)
  ∨ (t ∉ PerAccountActionTypes ∧ t ∉ AllAccountsActionTypes ∧ t ∈ AccountIndependentActionTypes)

instance (t : ActionType) : Decidable (inExactlyOnePartition t) :=
  inferInstanceAs (Decidable (_ ∨ _ ∨ _))

end ActionType

/--
An action value as the classifier sees it: a discriminant plus a
payload.  The payload shapes of `actionTypes.js` vary per discriminant
and are never inspected by `isPerAccountApplicableAction` (which
switches on `action.type` only), so they are modelled as an opaque bag
of fields.
-/
structure Action where
  type : ActionType
  payload : List (String × String) := []
deriving DecidableEq, Repr

/--
A runtime discriminant as seen by the JavaScript `switch` statement: in
the dynamically-typed runtime, `action.type` is just a string, either
one of the catalog constants (`ofCatalog`) or some other string
(`unknown`) that matches no `case` label and falls to `default`.
-/
inductive RuntimeTag
  | ofCatalog (t : ActionType)
  | unknown (s : String)
deriving DecidableEq

/--
Outcome of running the classifier switch on one discriminant: either a
boolean classification from an explicit `case` arm, or the `default`
branch.

Modelled from the spec: `ensureUnreachable` (imported from
`src/generics.js`, which is not part of the sources here) is, per the
spec, "a fatal runtime assertion immediately followed by refusing to
dispatch the action" (fatal in development, logged-and-dropped in
production); the `default` branch is therefore a classification
failure, never a partition assignment.
-/
inductive ClassifyOutcome
  | classified (b : Bool)
  | classificationFailure
deriving DecidableEq, Repr

namespace Classifier

open ActionType

/-- Case labels of the first arm of the `switch` in
`isPerAccountApplicableAction` (`actionTypes.js` lines 756-800), the
arm asserting `(action: PerAccountAction)` and returning `true`, in
source order. -/
def perAccountArmCases : List ActionType :=
  [ EVENT
  , EVENT_ALERT_WORDS
  , EVENT_MESSAGE_DELETE
  , EVENT_MUTED_TOPICS
  , EVENT_MUTED_USERS
  , EVENT_NEW_MESSAGE
  , EVENT_PRESENCE
  , EVENT_REACTION_ADD
  , EVENT_REACTION_REMOVE
  , EVENT_REALM_EMOJI_UPDATE
  , EVENT_REALM_FILTERS
  , EVENT_SUBMESSAGE
  , EVENT_SUBSCRIPTION
  , EVENT_TYPING_START
  , EVENT_TYPING_STOP
  , EVENT_UPDATE_DISPLAY_SETTINGS
  , EVENT_UPDATE_GLOBAL_NOTIFICATIONS_SETTINGS
  , EVENT_UPDATE_MESSAGE
  , EVENT_UPDATE_MESSAGE_FLAGS
  , EVENT_USER_ADD
  , EVENT_USER_GROUP_ADD
  , EVENT_USER_GROUP_ADD_MEMBERS
  , EVENT_USER_GROUP_REMOVE
  , EVENT_USER_GROUP_REMOVE_MEMBERS
  , EVENT_USER_GROUP_UPDATE
  , EVENT_USER_REMOVE
  , EVENT_USER_STATUS_UPDATE
  , EVENT_USER_UPDATE
  , DEAD_QUEUE
  , REGISTER_START
  , REGISTER_ABORT
  , REGISTER_COMPLETE
  , MESSAGE_FETCH_COMPLETE
  , MESSAGE_FETCH_ERROR
  , MESSAGE_FETCH_START
  , MESSAGE_SEND_COMPLETE
  , MESSAGE_SEND_START
  , DELETE_OUTBOX_MESSAGE
  , DRAFT_UPDATE
  , PRESENCE_RESPONSE
  , INIT_TOPICS
  , CLEAR_TYPING
  , DISMISS_SERVER_COMPAT_NOTICE
  , DISMISS_SERVER_PUSH_SETUP_NOTICE
  , TOGGLE_OUTBOX_SENDING ]

/-- Case labels of the second arm (lines 805-814), the arm asserting
`(action: AllAccountsAction)` and returning `true`, in source order. -/
def allAccountsArmCases : List ActionType :=
  [ REHYDRATE
  , ACCOUNT_SWITCH
  , ACCOUNT_REMOVE
  , LOGIN_SUCCESS
  , LOGOUT
  , ACK_PUSH_TOKEN
  , UNACK_PUSH_TOKEN ]

/-- Case labels of the third arm (lines 816-822), the arm asserting
`(action: AccountIndependentAction)` and returning `false`, in source
order. -/
def accountIndependentArmCases : List ActionType :=
  [ SET_GLOBAL_SETTINGS
  , APP_ONLINE
  , APP_ORIENTATION
  , GOT_PUSH_TOKEN
  , DEBUG_FLAG_TOGGLE ]

/--
The `switch` of `isPerAccountApplicableAction` (`actionTypes.js` lines
755-827), over a runtime discriminant.  A discriminant matching a label
of the first or second arm returns `true`; one matching the third arm
returns `false`; anything else falls to the `default` branch, which
calls `ensureUnreachable` — a classification failure (see
`ClassifyOutcome`).
-/
def classifySwitch : RuntimeTag → ClassifyOutcome
  | .ofCatalog t =>
      if t ∈ perAccountArmCases then .classified true
      else if t ∈ allAccountsArmCases then .classified true
      else if t ∈ accountIndependentArmCases then .classified false
      else .classificationFailure
  | .unknown _ => .classificationFailure

end Classifier

/-- The function `isPerAccountApplicableAction(action: Action)` of
`actionTypes.js` (lines 754-828): it switches on `action.type` and on
nothing else. -/
def isPerAccountApplicableAction (action : Action) : ClassifyOutcome :=
  Classifier.classifySwitch (.ofCatalog action.type)

/-!  Embedding of `src/utils/internalLinks.js`. -/

namespace InternalLinks

/-- The pieces of a resolved URL read by `isInternalLink`: the WHATWG
`new URL(url, base)` constructor is a platform builtin, so the
development is parametric over a resolver producing these fields. -/
structure URLParts where
  origin : String
  pathname : String
  search : String
  hash : String
deriving DecidableEq

/-- The `realm: URL` argument, used by the source only through
`realm.toString()` and `realm.origin`. -/
structure RealmURL where
  str : String
  origin : String
deriving DecidableEq

/-- Prefix test on character lists. -/
def listIsPrefix : List Char → List Char → Bool
  | [], _ => true
  | _ :: _, [] => false
  | a :: as, b :: bs => a == b && listIsPrefix as bs

/-- Substring test on character lists (`String.prototype.includes`). -/
def listContainsSub (needle : List Char) : List Char → Bool
  | [] => listIsPrefix needle []
  | c :: cs => listIsPrefix needle (c :: cs) || listContainsSub needle cs

/-- JS `haystack.includes(needle)`. -/
def containsSubstr (hay needle : String) : Bool :=
  listContainsSub needle.data hay.data

/-- The helper `getPathsFromUrl(url, realm)` (lines 10-23):
`url.split(realm.toString()).pop().split('#narrow/').pop().split('/')`,
dropping a trailing empty segment.  JS `split` on a non-empty string
separator is `String.splitOn`; `pop()` on the (always non-empty) result
of `split` is its last element. -/
def getPathsFromUrl (url : String) (realm : RealmURL) : List String :=
  let paths :=
    ((((url.splitOn realm.str).getLastD "").splitOn "#narrow/").getLastD "").splitOn "/"
  if paths.getLast? == some "" then paths.dropLast else paths

/-- The regex test `/^#narrow\//i.test(hash)`: a case-insensitive
`#narrow/` prefix. -/
def narrowHashTest (hash : String) : Bool :=
  hash.toLower.startsWith "#narrow/"

/-- `isInternalLink(url, realm)` (lines 44-52), parametric over the URL
resolver `newURL`. -/
def isInternalLink (newURL : String → RealmURL → URLParts) (url : String)
    (realm : RealmURL) : Bool :=
  let resolved := newURL url realm
  resolved.origin == realm.origin
    && resolved.pathname == "/"
    && resolved.search == ""
    && narrowHashTest resolved.hash

/-- `isMessageLink(url, realm)` (lines 63-64). -/
def isMessageLink (newURL : String → RealmURL → URLParts) (url : String)
    (realm : RealmURL) : Bool :=
  isInternalLink newURL url realm && containsSubstr url "near"

/-- The `LinkType` string union (line 66). -/
inductive LinkType
  | external
  | home
  | pm
  | topic
  | stream
  | special
deriving DecidableEq, Repr

/-- The regex test `/^(private|starred|mentioned)/i.test(s)`. -/
def specialTest (s : String) : Bool :=
  s.toLower.startsWith "private"
    || s.toLower.startsWith "starred"
    || s.toLower.startsWith "mentioned"

/-- `getLinkType(url, realm)` (lines 77-108).  Array indices are only
read under the preceding length checks, exactly as in the source. -/
def getLinkType (newURL : String → RealmURL → URLParts) (url : String)
    (realm : RealmURL) : LinkType :=
  if !isInternalLink newURL url realm then .external
  else
    let paths := getPathsFromUrl url realm
    if (paths.length == 2 && paths.getD 0 "" == "pm-with")
        || (paths.length == 4 && paths.getD 0 "" == "pm-with" && paths.getD 2 "" == "near") then
      .pm
    else if (paths.length == 4 || paths.length == 6)
        && paths.getD 0 "" == "stream"
        && (paths.getD 2 "" == "subject" || paths.getD 2 "" == "topic") then
      .topic
    else if paths.length == 2 && paths.getD 0 "" == "stream" then .stream
    else if paths.length == 2 && paths.getD 0 "" == "is" && specialTest (paths.getD 1 "") then
      .special
    else .home

/-- JS `parseInt(s, 10)`: skip ASCII whitespace, optional sign, then a
maximal run of decimal digits; `none` models `NaN` (no digits). -/
def parseIntDec (s : String) : Option Int :=
  let body := s.data.dropWhile fun c =>
    c == ' ' || c == '\t' || c == '\n' || c == '\r'
  let digits := fun (l : List Char) => l.takeWhile fun c => 48 ≤ c.toNat && c.toNat ≤ 57
  let value := fun (l : List Char) =>
    l.foldl (fun acc c => acc * 10 + ((c.toNat : Int) - 48)) (0 : Int)
  match body with
  | '-' :: rest =>
      if (digits rest).isEmpty then none else some (-(value (digits rest)))
  | '+' :: rest =>
      if (digits rest).isEmpty then none else some (value (digits rest))
  | l => if (digits l).isEmpty then none else some (value (digits l))

/-- JS `Array.prototype.lastIndexOf`: last index of `x`, `-1` when
absent. -/
def lastIndexOfStr (l : List String) (x : String) : Int :=
  match l.reverse.indexOf? x with
  | some i => (l.length : Int) - 1 - (i : Int)
  | none => -1

/-- `getMessageIdFromLink(url, realm)` (lines 228-232).  The JS function
returns a number; `none` models `NaN` (reading past the end of `paths`
gives `undefined`, and `parseInt(undefined, 10)` is `NaN`). -/
def getMessageIdFromLink (newURL : String → RealmURL → URLParts) (url : String)
    (realm : RealmURL) : Option Int :=
  let paths := getPathsFromUrl url realm
  if isMessageLink newURL url realm then
    match paths.get? (lastIndexOfStr paths "near" + (1 : Int)).toNat with
    | some s => parseIntDec s
    | none => none
  else some 0

end InternalLinks

/-!  Embedding of the dot-encoding pair `encodeHashComponent` /
`decodeHashComponent` of `src/utils/internalLinks.js`, together with
models of the JS builtins `encodeURIComponent` / `decodeURIComponent`
after their ECMA-262 definitions. -/

namespace HashEncoding

/-- UTF-8 bytes of one Unicode scalar value given as a code point. -/
def utf8EncodeNat (n : Nat) : List Nat :=
  if n < 0x80 then [n]
  else if n < 0x800 then [0xC0 + n / 64, 0x80 + n % 64]
  else if n < 0x10000 then [0xE0 + n / 4096, 0x80 + n / 64 % 64, 0x80 + n % 64]
  else [0xF0 + n / 262144, 0x80 + n / 4096 % 64, 0x80 + n / 64 % 64, 0x80 + n % 64]

/-- UTF-8 bytes of one character. -/
def utf8Bytes (c : Char) : List Nat := utf8EncodeNat c.toNat

/-- Uppercase hexadecimal digit, as produced by `encodeURIComponent`'s
`%HH` escapes. -/
def hexDigit (n : Nat) : Char :=
  if n < 10 then Char.ofNat (48 + n) else Char.ofNat (55 + n)

/-- Numeric value of one hexadecimal digit character (either case, as
`decodeURIComponent` accepts). -/
def hexVal (c : Char) : Option Nat :=
  if 48 ≤ c.toNat ∧ c.toNat ≤ 57 then some (c.toNat - 48)
  else if 65 ≤ c.toNat ∧ c.toNat ≤ 70 then some (c.toNat - 55)
  else if 97 ≤ c.toNat ∧ c.toNat ≤ 102 then some (c.toNat - 87)
  else none

/-- The `%HH` escape of one byte. -/
def percentByte (b : Nat) : List Char :=
  ['%', hexDigit (b / 16), hexDigit (b % 16)]

/-- The ECMA-262 `uriUnescaped` set: the characters
`encodeURIComponent` leaves unescaped (ALPHA, DIGIT, and
`- _ . ! ~ * ' ( )`). -/
def isUriUnescaped (c : Char) : Bool :=
  (65 ≤ c.toNat && c.toNat ≤ 90)
    || (97 ≤ c.toNat && c.toNat ≤ 122)
    || (48 ≤ c.toNat && c.toNat ≤ 57)
    || c.toNat == 45 || c.toNat == 95 || c.toNat == 46 || c.toNat == 33
    || c.toNat == 126 || c.toNat == 42 || c.toNat == 39 || c.toNat == 40
    || c.toNat == 41

/-- One character's contribution to `encodeURIComponent`. -/
def encodeURIComponentChar (c : Char) : List Char :=
  if isUriUnescaped c then [c] else ((utf8Bytes c).map percentByte).flatten

/-- The JS builtin `encodeURIComponent`, per ECMA-262: unescaped
characters pass through, every other character becomes the `%HH`
escapes of its UTF-8 bytes. -/
def encodeURIComponentStr (s : String) : String :=
  ⟨(s.data.map encodeURIComponentChar).flatten⟩

/-- One character's contribution to
`.replace(/[%().]/g, m => hashReplacements.get(m) ?? '')`
(`internalLinks.js` lines 25-30 and 131): the map sends `%` to `.`,
`(` to `.28`, `)` to `.29` and `.` to `.2E`; other characters are not
matched by the regex and pass through. -/
def hashReplacement (c : Char) : List Char :=
  if c = '%' then ['.']
  else if c = '(' then ['.', '2', '8']
  else if c = ')' then ['.', '2', '9']
  else if c = '.' then ['.', '2', 'E']
  else [c]

/-- `encodeHashComponent(string)` (lines 130-131):
`encodeURIComponent(string)` followed by the dot-replacement pass. -/
def encodeHashComponent (s : String) : String :=
  ⟨((encodeURIComponentStr s).data.map hashReplacement).flatten⟩

/-- Prepend already-decoded bytes to the decoding of the rest,
propagating failure. -/
def consBytes (pre : List Nat) (o : Option (List Nat)) : Option (List Nat) :=
  match o with
  | some bs => some (pre ++ bs)
  | none => none

/-- First phase of ECMA-262 `Decode`, one character at a time: turn
every `%HH` escape into the byte `HH` and every other character into
its UTF-8 bytes; fail on a malformed escape.  The first argument is the
state inside an escape: `some none` right after a `%`, `some (some v1)`
after `%` and one hex digit of value `v1`. -/
def percentDecodeLoop : Option (Option Nat) → List Char → Option (List Nat)
  | none, [] => some []
  | some _, [] => none
  | none, c :: rest =>
    if c = '%' then percentDecodeLoop (some none) rest
    else consBytes (utf8Bytes c) (percentDecodeLoop none rest)
  | some none, c :: rest =>
    match hexVal c with
    | some v1 => percentDecodeLoop (some (some v1)) rest
    | none => none
  | some (some v1), c :: rest =>
    match hexVal c with
    | some v2 => consBytes [v1 * 16 + v2] (percentDecodeLoop none rest)
    | none => none

/-- Percent unescaping of a whole character sequence. -/
def percentDecodeBytes (l : List Char) : Option (List Nat) :=
  percentDecodeLoop none l

/-- A code point as an optional character: fails on surrogates and
out-of-range values, as ECMA-262 `Decode` does. -/
def mkChar (n : Nat) : Option Char :=
  if h : n.isValidChar then some (Char.ofNatAux n h) else none

/-- Combine a decoded character with the decoding of the remaining
bytes, propagating failure. -/
def consChar (oc : Option Char) (ocs : Option (List Char)) : Option (List Char) :=
  match oc, ocs with
  | some c, some cs => some (c :: cs)
  | _, _ => none

/-- Second phase of ECMA-262 `Decode`: strict UTF-8 decoding, one byte
at a time.  The first argument is the state inside a multi-byte
sequence: `some (k, lo, acc)` means `k` continuation bytes are still
expected, the accumulated code point is `acc`, and the finished code
point must be at least `lo` (rejecting overlong forms); `mkChar`
rejects surrogates and out-of-range code points, and stray or missing
continuation bytes fail, exactly as ECMA-262 `Decode` throws. -/
def utf8DecodeLoop : Option (Nat × Nat × Nat) → List Nat → Option (List Char)
  | none, [] => some []
  | some _, [] => none
  | none, b :: bs =>
    if b < 0x80 then consChar (mkChar b) (utf8DecodeLoop none bs)
    else if b < 0xC0 then none
    else if b < 0xE0 then utf8DecodeLoop (some (1, 0x80, b - 0xC0)) bs
    else if b < 0xF0 then utf8DecodeLoop (some (2, 0x800, b - 0xE0)) bs
    else if b < 0xF5 then utf8DecodeLoop (some (3, 0x10000, b - 0xF0)) bs
    else none
  | some (k, lo, acc), b :: bs =>
    if 0x80 ≤ b ∧ b < 0xC0 then
      if k ≤ 1 then
        if acc * 64 + (b - 0x80) < lo then none
        else consChar (mkChar (acc * 64 + (b - 0x80))) (utf8DecodeLoop none bs)
      else utf8DecodeLoop (some (k - 1, lo, acc * 64 + (b - 0x80))) bs
    else none

/-- UTF-8 decoding of a whole byte sequence. -/
def utf8DecodeBytes (l : List Nat) : Option (List Char) :=
  utf8DecodeLoop none l

/-- The JS builtin `decodeURIComponent`, per ECMA-262 `Decode`: percent
unescaping into bytes, then strict UTF-8 decoding; `none` models the
thrown `URIError`. -/
def decodeURIComponentStr (s : String) : Option String :=
  match percentDecodeBytes s.data with
  | some bytes =>
    match utf8DecodeBytes bytes with
    | some chars => some ⟨chars⟩
    | none => none
  | none => none

/-- One character of `string.replace(/\./g, '%')`: a dot becomes a
percent sign, everything else passes through. -/
def undotChar (c : Char) : Char := if c = '.' then '%' else c

/-- `string.replace(/\./g, '%')` (line 115). -/
def dotsToPercents (s : String) : String :=
  ⟨s.data.map undotChar⟩

/-- `decodeHashComponent(string)` (lines 113-126): replace every dot by
a percent sign and `decodeURIComponent` the result.  The source
re-throws the `URIError` after logging a breadcrumb, so the failure is
the `none` case. -/
def decodeHashComponent (s : String) : Option String :=
  decodeURIComponentStr (dotsToPercents s)

/-- Proof-layer combination: what one source character contributes, after
`encodeURIComponent`, the dot-replacement pass and the dot-to-percent
pass of the decoder have all acted on it. -/
def hashEncodedChar (c : Char) : List Char :=
  ((encodeURIComponentChar c).map fun x => (hashReplacement x).map undotChar).flatten

end HashEncoding

/-!  Embedding of `src/webview/html/messageListElementHtml.js`. -/

namespace MessageListHtml

/-- Opaque payload fields of a message-list element; the dispatch
function reads only the `type` tag. -/
def Payload := List (String × String)

/-- A `MessageListElement`: the source switches on
`element.type ∈ {time, header, message}`. -/
inductive MessageListElement
  | time (payload : Payload)
  | header (payload : Payload)
  | message (payload : Payload)

/-- Opaque `BackgroundData` record passed through to the renderers. -/
structure BackgroundData where
  fields : Payload

/-- Opaque `Narrow` record; the source takes it as a prop but does not
read it in this function. -/
structure Narrow where
  fields : Payload

/-- The renderers `time`, `header` and `message` imported from sibling
modules that are not among the sources here; the development is
parametric over them, mirroring their call signatures
(`time(element)`, `header(backgroundData, element)`,
`message(backgroundData, element, _)`). -/
structure Renderers where
  time : Payload → String
  header : BackgroundData → Payload → String
  message : BackgroundData → Payload → (String → String) → String

/-- The `switch (element.type)` body of the mapped arrow function
(lines 22-33). -/
def renderElement (r : Renderers) (backgroundData : BackgroundData)
    (gettext : String → String) : MessageListElement → String
  | .time p => r.time p
  | .header p => r.header backgroundData p
  | .message p => r.message backgroundData p gettext

/-- The default export of `messageListElementHtml.js` (lines 10-35):
map each element through its renderer and `.flatten('')` the results. -/
def messageListElementHtml (r : Renderers) (backgroundData : BackgroundData)
    (narrow : Narrow) (messageListElements : List MessageListElement)
    (gettext : String → String) : String :=
  let _ := narrow
  String.join (messageListElements.map (renderElement r backgroundData gettext))

end MessageListHtml

/-!  Model of the event-adapter/dispatcher ordering contract.  The Event
Adapter and Dispatcher are not among the sources here; both are
modelled from the spec (§4.4, §4.5, §5). -/

namespace Dispatch

/-- Modelled from the spec (§3, §6): a server event carries a
monotonically increasing per-connection sequence id and a type-specific
payload. -/
structure ServerEvent where
  id : Nat
  payload : List (String × String) := []
deriving DecidableEq

/-- The dispatch log of one account's stream: the actions delivered to
reducers, in delivery order. -/
structure DispatcherState where
  log : List Action := []
deriving DecidableEq

/-- Modelled from the spec (§4.5): dispatch of a single action is
synchronous and completes before the next action from the same ordered
source is dispatched — it appends the action to the delivery log. -/
def dispatchOne (st : DispatcherState) (a : Action) : DispatcherState :=
  ⟨st.log ++ [a]⟩

/-- Modelled from the spec (§4.4, §4.5): one server event is adapted
into a list of actions (`adapt(serverEvent) -> list<Action>`), each of
which is dispatched in order before the next event is processed. -/
def processEvent (adapt : ServerEvent → List Action) (st : DispatcherState)
    (e : ServerEvent) : DispatcherState :=
  (adapt e).foldl dispatchOne st

/-- Modelled from the spec (§5): the single-threaded loop consumes one
account's event stream in arrival order, starting from an empty log. -/
def processStream (adapt : ServerEvent → List Action)
    (es : List ServerEvent) : DispatcherState :=
  es.foldl (processEvent adapt) ⟨[]⟩

/-- Strictly increasing sequence ids along a stream. -/
def strictlyIncreasingIds : List ServerEvent → Bool
  | [] => true
  | [_] => true
  | a :: b :: rest => a.id < b.id && strictlyIncreasingIds (b :: rest)

end Dispatch

end ZulipMobile

/-!
## Theorems

Shared helper lemmas first, then one theorem (plus witness where the
statement carries a hypothesis) per verified claim.
-/

namespace ZulipMobile

theorem stringJoin_append (l1 l2 : List String) :
    String.join (l1 ++ l2) = String.join l1 ++ String.join l2 := by
  simp [String.join_eq]
  apply String.ext
  simp

theorem stringJoin_singleton (a : String) : String.join [a] = a := by
  simp [String.join_eq]

namespace Dispatch

theorem foldl_dispatchOne_log (l : List Action) (st : DispatcherState) :
    (l.foldl dispatchOne st).log = st.log ++ l := by
  induction l generalizing st with
  | nil => simp
  | cons a rest ih => simp [dispatchOne, ih]

theorem foldl_processEvent_log (adapt : ServerEvent → List Action)
    (es : List ServerEvent) (st : DispatcherState) :
    (es.foldl (processEvent adapt) st).log = st.log ++ (es.map adapt).flatten := by
  induction es generalizing st with
  | nil => simp
  | cons e rest ih => simp [processEvent, ih, foldl_dispatchOne_log]

/-- Claim C6: for a sequence of server events with strictly increasing
sequence ids from one account's stream, the dispatch log equals the
in-order concatenation of the actions each event expands to — the
relative order of the expanded actions is preserved end-to-end through
adaptation and dispatch, with no reordering within the stream. -/
theorem order_preserved (adapt : ServerEvent → List Action)
    (es : List ServerEvent) (_h : strictlyIncreasingIds es = true) :
    (processStream adapt es).log = (es.map adapt).flatten := by
  unfold processStream
  rw [foldl_processEvent_log]
  rfl

/-- Witness for C6: a concrete two-event stream with increasing ids,
where the first event expands to two actions and the second to one. -/
theorem order_preserved_witness :
    strictlyIncreasingIds [⟨1, []⟩, ⟨2, []⟩] = true ∧
    (processStream
        (fun e => if e.id = 1 then [⟨.APP_ONLINE, []⟩, ⟨.LOGOUT, []⟩] else [⟨.REHYDRATE, []⟩])
        [⟨1, []⟩, ⟨2, []⟩]).log
      = (([⟨1, []⟩, ⟨2, []⟩] : List ServerEvent).map
          (fun e => if e.id = 1 then [⟨.APP_ONLINE, []⟩, ⟨.LOGOUT, []⟩]
            else [⟨.REHYDRATE, []⟩])).flatten :=
  ⟨by decide, order_preserved _ _ (by decide)⟩

end Dispatch

/-- Claim C1 (code bug): the three partition unions are jointly
exhaustive over the catalog, but they are not pairwise disjoint as the
spec and the source's own comment ("they should have no overlap")
require: the discriminant `DISMISS_SERVER_PUSH_SETUP_NOTICE` is listed
both in `PerAccountAction` (line 676) and, through `AccountAction`
(line 636), in `AllAccountsAction`; every other discriminant lies in
exactly one partition. -/
theorem partition_overlap_at_dismiss_notice :
    ActionType.DISMISS_SERVER_PUSH_SETUP_NOTICE ∈ ActionType.PerAccountActionTypes ∧
    ActionType.DISMISS_SERVER_PUSH_SETUP_NOTICE ∈ ActionType.AllAccountsActionTypes ∧
    ¬ ActionType.inExactlyOnePartition ActionType.DISMISS_SERVER_PUSH_SETUP_NOTICE ∧
    ∀ t : ActionType, t ∈ ActionType.ActionCatalogTypes ∧
      (ActionType.inExactlyOnePartition t ∨ t = ActionType.DISMISS_SERVER_PUSH_SETUP_NOTICE) := by
  decide

/-- Claim C2: for every action, `isPerAccountApplicableAction` returns
`true` exactly when the discriminant belongs to the `PerAccountAction`
or `AllAccountsAction` union, and `false` exactly when it belongs to
the `AccountIndependentAction` union. -/
theorem classifier_consistent_with_unions (a : Action) :
    (isPerAccountApplicableAction a = .classified true ↔
      (a.type ∈ ActionType.PerAccountActionTypes ∨ a.type ∈ ActionType.AllAccountsActionTypes)) ∧
    (isPerAccountApplicableAction a = .classified false ↔
      a.type ∈ ActionType.AccountIndependentActionTypes) := by
  have h : ∀ t : ActionType,
      (Classifier.classifySwitch (.ofCatalog t) = .classified true ↔
        (t ∈ ActionType.PerAccountActionTypes ∨ t ∈ ActionType.AllAccountsActionTypes)) ∧
      (Classifier.classifySwitch (.ofCatalog t) = .classified false ↔
        t ∈ ActionType.AccountIndependentActionTypes) := by decide
  exact h a.type

/-- Claim C3: the classifier is total over the catalog — every
discriminant of the `Action` union is matched by an explicit `case` arm
of the switch and yields a defined boolean; none reaches the `default`
(`ensureUnreachable`) branch. -/
theorem classifier_total_on_catalog : ∀ t : ActionType,
    t ∈ ActionType.ActionCatalogTypes ∧
    (t ∈ Classifier.perAccountArmCases ∨ t ∈ Classifier.allAccountsArmCases ∨
      t ∈ Classifier.accountIndependentArmCases) ∧
    (∃ b, Classifier.classifySwitch (.ofCatalog t) = .classified b) ∧
    Classifier.classifySwitch (.ofCatalog t) ≠ .classificationFailure := by
  decide

/-- Claim C4: an `EVENT_TYPING_START` action is classified per-account
(`true`, through the `PerAccountAction` arm of the switch), an
`ACCOUNT_SWITCH` action all-accounts (`true`, through the
`AllAccountsAction` arm), and an `APP_ONLINE` action
account-independent (`false`), whatever their payloads. -/
theorem scenario_classifications :
    (∀ p, isPerAccountApplicableAction ⟨.EVENT_TYPING_START, p⟩ = .classified true) ∧
    ActionType.EVENT_TYPING_START ∈ Classifier.perAccountArmCases ∧
    ActionType.EVENT_TYPING_START ∈ ActionType.PerAccountActionTypes ∧
    (∀ p, isPerAccountApplicableAction ⟨.ACCOUNT_SWITCH, p⟩ = .classified true) ∧
    ActionType.ACCOUNT_SWITCH ∈ Classifier.allAccountsArmCases ∧
    ActionType.ACCOUNT_SWITCH ∈ ActionType.AllAccountsActionTypes ∧
    (∀ p, isPerAccountApplicableAction ⟨.APP_ONLINE, p⟩ = .classified false) ∧
    ActionType.APP_ONLINE ∈ Classifier.accountIndependentArmCases ∧
    ActionType.APP_ONLINE ∈ ActionType.AccountIndependentActionTypes :=
  ⟨fun _ => rfl, by decide, by decide, fun _ => rfl, by decide, by decide,
   fun _ => rfl, by decide, by decide⟩

/-- Claim C5: a runtime discriminant outside the catalog falls to the
`default` branch of the switch, which is a classification failure
(modelled from the spec as a fatal assertion, logged-and-dropped in
production) — such an action is never classified into any partition. -/
theorem unknown_discriminant_fails : ∀ s : String,
    Classifier.classifySwitch (.unknown s) = .classificationFailure ∧
    ∀ b, Classifier.classifySwitch (.unknown s) ≠ .classified b :=
  fun _ => ⟨rfl, fun _ h => ClassifyOutcome.noConfusion h⟩

/-- Claim C7: `isPerAccountApplicableAction` is a pure function of its
argument — the embedding is deterministic by construction, and the
result depends on nothing but the action's discriminant, so any two
actions with equal discriminants (in particular equal action values)
classify identically. -/
theorem classifier_pure (a₁ a₂ : Action) (h : a₁.type = a₂.type) :
    isPerAccountApplicableAction a₁ = isPerAccountApplicableAction a₂ := by
  unfold isPerAccountApplicableAction
  rw [h]

/-- Witness for C7: two `APP_ONLINE` actions with different payloads
classify identically. -/
theorem classifier_pure_witness :
    isPerAccountApplicableAction ⟨.APP_ONLINE, []⟩
      = isPerAccountApplicableAction ⟨.APP_ONLINE, [("isOnline", "true")]⟩ :=
  classifier_pure ⟨.APP_ONLINE, []⟩ ⟨.APP_ONLINE, [("isOnline", "true")]⟩ rfl

namespace InternalLinks

/-- Claim C9: whenever `isMessageLink` is false the message id reported
by `getMessageIdFromLink` is 0, and `getLinkType` answers `external`
exactly when `isInternalLink` is false — for every URL resolver, URL
string and realm. -/
theorem non_message_link_fallback (newURL : String → RealmURL → URLParts)
    (url : String) (realm : RealmURL) :
    (isMessageLink newURL url realm = false →
      getMessageIdFromLink newURL url realm = some 0) ∧
    (getLinkType newURL url realm = LinkType.external ↔
      isInternalLink newURL url realm = false) := by
  constructor
  · intro h
    unfold getMessageIdFromLink
    simp [h]
  · unfold getLinkType
    cases hI : isInternalLink newURL url realm with
    | false => simp
    | true => simp; split_ifs <;> simp

/-- Witness for C9: a resolver whose origin differs from the realm's,
so the URL is not internal, not a message link, and the reported id
is 0. -/
theorem non_message_link_fallback_witness :
    isMessageLink (fun _ _ => ⟨"a", "/", "", ""⟩) "x" ⟨"https://r/", "b"⟩ = false ∧
    getMessageIdFromLink (fun _ _ => ⟨"a", "/", "", ""⟩) "x" ⟨"https://r/", "b"⟩ = some 0 :=
  ⟨by decide, (non_message_link_fallback _ _ _).1 (by decide)⟩

end InternalLinks

namespace MessageListHtml

/-- Claim C10: with the background data, narrow and translation
function fixed, rendering message-list elements is an order-preserving
list homomorphism: the empty list renders to the empty string,
concatenation of element lists renders to the concatenation of their
renderings, and a singleton renders to exactly its element's rendering
(so each element's rendering appears in input order). -/
theorem html_is_list_homomorphism (r : Renderers) (bg : BackgroundData)
    (nr : Narrow) (gt : String → String) :
    messageListElementHtml r bg nr [] gt = "" ∧
    (∀ xs ys, messageListElementHtml r bg nr (xs ++ ys) gt
        = messageListElementHtml r bg nr xs gt ++ messageListElementHtml r bg nr ys gt) ∧
    (∀ e, messageListElementHtml r bg nr [e] gt = renderElement r bg gt e) := by
  refine ⟨rfl, ?_, ?_⟩
  · intro xs ys
    unfold messageListElementHtml
    simp [stringJoin_append]
  · intro e
    unfold messageListElementHtml
    simp [stringJoin_singleton]

end MessageListHtml

namespace HashEncoding

theorem mkChar_toNat (c : Char) : mkChar c.toNat = some c := by
  have hv : c.toNat.isValidChar := c.valid
  unfold mkChar
  rw [dif_pos hv]
  have h := Char.ofNat_toNat c
  unfold Char.ofNat at h
  rw [dif_pos hv] at h
  rw [h]

theorem char_toNat_lt (c : Char) : c.toNat < 1114112 := by
  have hv : c.toNat.isValidChar := c.valid
  rcases hv with h | ⟨h1, h2⟩ <;> omega

theorem utf8EncodeNat_lt (n : Nat) (hn : n < 1114112) :
    ∀ b ∈ utf8EncodeNat n, b < 256 := by
  unfold utf8EncodeNat
  split_ifs <;> simp_all <;> omega

theorem hexVal_hexDigit (n : Nat) (h : n < 16) : hexVal (hexDigit n) = some n := by
  interval_cases n <;> rfl

theorem undot_hashReplacement_hexDigit (n : Nat) (h : n < 16) :
    (hashReplacement (hexDigit n)).map undotChar = [hexDigit n] := by
  interval_cases n <;> rfl

-- flatten/map commutation helper
theorem flatten_map_flatten_map {α β γ : Type} (f : α → List β) (g : β → List γ)
    (l : List α) :
    ((((l.map f).flatten).map g).flatten) = (l.map fun a => ((f a).map g).flatten).flatten := by
  induction l with
  | nil => rfl
  | cons a tl ih =>
    simp only [List.map_cons, List.flatten_cons, List.map_append, List.flatten_append, ih]

theorem dots_data (s : String) :
    (dotsToPercents (encodeHashComponent s)).data
      = (s.data.map hashEncodedChar).flatten := by
  show (((((s.data.map encodeURIComponentChar).flatten).map hashReplacement).flatten).map undotChar)
      = (s.data.map hashEncodedChar).flatten
  rw [flatten_map_flatten_map encodeURIComponentChar hashReplacement]
  rw [List.map_flatten]
  rw [List.map_map]
  unfold hashEncodedChar
  congr 1
  apply List.map_congr_left
  intro c _
  simp only [Function.comp_apply]
  rw [List.map_flatten, List.map_map]
  rfl

theorem consBytes_map (pre : List Nat) (o : Option (List Nat)) :
    consBytes pre o = o.map (pre ++ ·) := by
  cases o <;> rfl

theorem percentDecode_percentBytes (bs : List Nat) (h : ∀ b ∈ bs, b < 256) (rest : List Char) :
    percentDecodeBytes ((bs.map percentByte).flatten ++ rest)
      = (percentDecodeBytes rest).map (bs ++ ·) := by
  induction bs with
  | nil =>
    simp only [List.map_nil, List.flatten_nil, List.nil_append]
    cases percentDecodeBytes rest <;> rfl
  | cons b tl ih =>
    have hb : b < 256 := h b (by simp)
    have h16 : b / 16 < 16 := by omega
    have h16' : b % 16 < 16 := by omega
    have hbb : b / 16 * 16 + b % 16 = b := by omega
    show percentDecodeLoop none
        ((Char.ofNat 37 :: hexDigit (b / 16) :: hexDigit (b % 16) :: [])
          ++ ((tl.map percentByte).flatten ++ rest)) = _
    simp only [List.cons_append, List.nil_append]
    rw [percentDecodeLoop, if_pos rfl]
    rw [percentDecodeLoop, hexVal_hexDigit _ h16]
    show percentDecodeLoop (some (some (b / 16)))
        (hexDigit (b % 16) :: ((tl.map percentByte).flatten ++ rest)) = _
    rw [percentDecodeLoop, hexVal_hexDigit _ h16']
    show consBytes [b / 16 * 16 + b % 16]
        (percentDecodeLoop none ((tl.map percentByte).flatten ++ rest)) = _
    rw [hbb]
    show consBytes [b] (percentDecodeBytes ((tl.map percentByte).flatten ++ rest)) = _
    rw [ih (fun x hx => h x (by simp [hx])), consBytes_map]
    cases percentDecodeBytes rest <;> rfl

theorem consChar_some (c : Char) (o : Option (List Char)) :
    consChar (some c) o = o.map (c :: ·) := by
  cases o <;> rfl

theorem utf8Decode_utf8Bytes (c : Char) (rest : List Nat) :
    utf8DecodeBytes (utf8Bytes c ++ rest) = (utf8DecodeBytes rest).map (c :: ·) := by
  have hlt := char_toNat_lt c
  show utf8DecodeLoop none (utf8EncodeNat c.toNat ++ rest) = (utf8DecodeLoop none rest).map _
  unfold utf8EncodeNat
  by_cases h1 : c.toNat < 128
  · rw [if_pos h1]
    show utf8DecodeLoop none (c.toNat :: rest) = _
    rw [utf8DecodeLoop, if_pos h1, mkChar_toNat, consChar_some]
  · rw [if_neg h1]
    by_cases h2 : c.toNat < 2048
    · rw [if_pos h2]
      show utf8DecodeLoop none ((192 + c.toNat / 64) :: (128 + c.toNat % 64) :: rest) = _
      rw [utf8DecodeLoop,
        if_neg (by omega : ¬ (192 + c.toNat / 64 < 128)),
        if_neg (by omega : ¬ (192 + c.toNat / 64 < 192)),
        if_pos (by omega : 192 + c.toNat / 64 < 224)]
      rw [utf8DecodeLoop,
        if_pos (by omega : 128 ≤ 128 + c.toNat % 64 ∧ 128 + c.toNat % 64 < 192),
        if_pos (by omega : (1 : Nat) ≤ 1),
        (by omega :
          (192 + c.toNat / 64 - 192) * 64 + (128 + c.toNat % 64 - 128) = c.toNat),
        if_neg h1, mkChar_toNat, consChar_some]
    · rw [if_neg h2]
      by_cases h3 : c.toNat < 65536
      · rw [if_pos h3]
        show utf8DecodeLoop none
            ((224 + c.toNat / 4096) :: (128 + c.toNat / 64 % 64)
              :: (128 + c.toNat % 64) :: rest) = _
        rw [utf8DecodeLoop,
          if_neg (by omega : ¬ (224 + c.toNat / 4096 < 128)),
          if_neg (by omega : ¬ (224 + c.toNat / 4096 < 192)),
          if_neg (by omega : ¬ (224 + c.toNat / 4096 < 224)),
          if_pos (by omega : 224 + c.toNat / 4096 < 240)]
        rw [utf8DecodeLoop,
          if_pos (by omega : 128 ≤ 128 + c.toNat / 64 % 64 ∧ 128 + c.toNat / 64 % 64 < 192),
          if_neg (by omega : ¬ ((2 : Nat) ≤ 1))]
        rw [utf8DecodeLoop,
          if_pos (by omega : 128 ≤ 128 + c.toNat % 64 ∧ 128 + c.toNat % 64 < 192),
          if_pos (by omega : (2 : Nat) - 1 ≤ 1),
          (by omega :
            ((224 + c.toNat / 4096 - 224) * 64 + (128 + c.toNat / 64 % 64 - 128)) * 64
              + (128 + c.toNat % 64 - 128) = c.toNat),
          if_neg (by omega : ¬ (c.toNat < 2048)), mkChar_toNat, consChar_some]
      · rw [if_neg h3]
        show utf8DecodeLoop none
            ((240 + c.toNat / 262144) :: (128 + c.toNat / 4096 % 64)
              :: (128 + c.toNat / 64 % 64) :: (128 + c.toNat % 64) :: rest) = _
        rw [utf8DecodeLoop,
          if_neg (by omega : ¬ (240 + c.toNat / 262144 < 128)),
          if_neg (by omega : ¬ (240 + c.toNat / 262144 < 192)),
          if_neg (by omega : ¬ (240 + c.toNat / 262144 < 224)),
          if_neg (by omega : ¬ (240 + c.toNat / 262144 < 240)),
          if_pos (by omega : 240 + c.toNat / 262144 < 245)]
        rw [utf8DecodeLoop,
          if_pos (by omega :
            128 ≤ 128 + c.toNat / 4096 % 64 ∧ 128 + c.toNat / 4096 % 64 < 192),
          if_neg (by omega : ¬ ((3 : Nat) ≤ 1))]
        rw [utf8DecodeLoop,
          if_pos (by omega : 128 ≤ 128 + c.toNat / 64 % 64 ∧ 128 + c.toNat / 64 % 64 < 192),
          if_neg (by omega : ¬ ((3 : Nat) - 1 ≤ 1))]
        rw [utf8DecodeLoop,
          if_pos (by omega : 128 ≤ 128 + c.toNat % 64 ∧ 128 + c.toNat % 64 < 192),
          if_pos (by omega : (3 : Nat) - 1 - 1 ≤ 1),
          (by omega :
            (((240 + c.toNat / 262144 - 240) * 64 + (128 + c.toNat / 4096 % 64 - 128)) * 64
                + (128 + c.toNat / 64 % 64 - 128)) * 64
              + (128 + c.toNat % 64 - 128) = c.toNat),
          if_neg (by omega : ¬ (c.toNat < 65536)), mkChar_toNat, consChar_some]

theorem uriUnescaped_ne_percent {c : Char} (hu : isUriUnescaped c = true) : ¬ (c = '%') := by
  intro h
  subst h
  exact absurd hu (by decide)

theorem hashEncodedChar_literal {c : Char} (hu : isUriUnescaped c = true)
    (h1 : ¬ (c = '(')) (h2 : ¬ (c = ')')) (h3 : ¬ (c = '.')) :
    hashEncodedChar c = [c] := by
  unfold hashEncodedChar encodeURIComponentChar
  rw [if_pos hu]
  simp only [List.map_cons, List.map_nil, List.flatten_cons, List.flatten_nil,
    List.append_nil]
  unfold hashReplacement
  rw [if_neg (uriUnescaped_ne_percent hu), if_neg h1, if_neg h2, if_neg h3]
  simp [undotChar, h3]

theorem undot_percentByte (b : Nat) (hb : b < 256) :
    ((percentByte b).map fun x => (hashReplacement x).map undotChar).flatten
      = percentByte b := by
  have h1 : b / 16 < 16 := by omega
  have h2 : b % 16 < 16 := by omega
  simp only [percentByte, List.map_cons, List.map_nil, List.flatten_cons, List.flatten_nil,
    undot_hashReplacement_hexDigit _ h1, undot_hashReplacement_hexDigit _ h2]
  rfl

theorem hashEncodedChar_escaped {c : Char} (hu : isUriUnescaped c = false) :
    hashEncodedChar c = ((utf8Bytes c).map percentByte).flatten := by
  unfold hashEncodedChar encodeURIComponentChar
  rw [if_neg (by simp [hu])]
  rw [flatten_map_flatten_map percentByte (fun x => (hashReplacement x).map undotChar)]
  congr 1
  apply List.map_congr_left
  intro b hb
  exact undot_percentByte b (utf8EncodeNat_lt _ (char_toNat_lt c) b hb)

theorem percentDecode_hashEncodedChar (c : Char) (rest : List Char) :
    percentDecodeBytes (hashEncodedChar c ++ rest)
      = (percentDecodeBytes rest).map (utf8Bytes c ++ ·) := by
  by_cases hu : isUriUnescaped c = true
  · by_cases hp1 : c = '('
    · subst hp1
      rw [(by decide : hashEncodedChar '(' = ((utf8Bytes '(').map percentByte).flatten)]
      exact percentDecode_percentBytes _ (by decide) rest
    by_cases hp2 : c = ')'
    · subst hp2
      rw [(by decide : hashEncodedChar ')' = ((utf8Bytes ')').map percentByte).flatten)]
      exact percentDecode_percentBytes _ (by decide) rest
    by_cases hp3 : c = '.'
    · subst hp3
      rw [(by decide : hashEncodedChar '.' = ((utf8Bytes '.').map percentByte).flatten)]
      exact percentDecode_percentBytes _ (by decide) rest
    rw [hashEncodedChar_literal hu hp1 hp2 hp3]
    show percentDecodeLoop none (c :: rest) = _
    rw [percentDecodeLoop, if_neg (uriUnescaped_ne_percent hu), consBytes_map]
    rfl
  · rw [hashEncodedChar_escaped (Bool.not_eq_true _ ▸ hu)]
    exact percentDecode_percentBytes _
      (fun b hb => utf8EncodeNat_lt _ (char_toNat_lt c) b hb) rest

theorem percentDecode_full (l : List Char) :
    percentDecodeBytes ((l.map hashEncodedChar).flatten)
      = some ((l.map utf8Bytes).flatten) := by
  induction l with
  | nil => rfl
  | cons c tl ih =>
    simp only [List.map_cons, List.flatten_cons]
    rw [percentDecode_hashEncodedChar, ih]
    rfl

theorem utf8Decode_full (l : List Char) :
    utf8DecodeBytes ((l.map utf8Bytes).flatten) = some l := by
  induction l with
  | nil => rfl
  | cons c tl ih =>
    simp only [List.map_cons, List.flatten_cons]
    rw [utf8Decode_utf8Bytes, ih]
    rfl

/-- Claim C8: the dot-encoding round-trips — for every string `s`,
`decodeHashComponent (encodeHashComponent s)` succeeds and returns `s`:
the composition of percent-encoding with the replacements
`% → .`, `( → .28`, `) → .29`, `. → .2E` is inverted exactly by
replacing every `.` with `%` and percent-decoding. -/
theorem hash_roundtrip (s : String) :
    decodeHashComponent (encodeHashComponent s) = some s := by
  unfold decodeHashComponent decodeURIComponentStr
  rw [dots_data s, percentDecode_full]
  show (match utf8DecodeBytes ((s.data.map utf8Bytes).flatten) with
    | some chars => some (String.mk chars)
    | none => none) = some s
  rw [utf8Decode_full]

end HashEncoding

end ZulipMobile
